import Mathlib

/-!
Verification of the Lightning Record Explorer hierarchy-explorer component.

The development shallowly embeds the orchestrator class of
`lresHierarchyExplorer` (layout re-flow, centering, refresh state machine,
pan gesture initiation, cap-message display) and proves the documented
properties about it.  JS numbers are modelled as rationals (`ℚ`), JS `Map`s
as association lists in insertion order, and fallible field accesses as
`Option`.  Collaborator modules whose sources are not part of this repository (`./layout`, the field-utils string normalizer) are modelled
from the specification and marked as such in their doc comments.
-/

namespace LRES

/-- A JS `Map` keyed by strings, kept in insertion order. -/
abbrev StrMap (β : Type) := List (String × β)

/-- JS `Map.get`: the value stored for a key, if any. -/
def StrMap.get {β : Type} : StrMap β → String → Option β
  | [], _ => none
  | (k, v) :: rest, key => if k = key then some v else StrMap.get rest key

/-- JS `Map.set`: replaces the binding in place when the key exists, otherwise
appends the new binding (JS `Map.set` keeps the original insertion slot). -/
def StrMap.set {β : Type} : StrMap β → String → β → StrMap β
  | [], k, v => [(k, v)]
  | (k', v') :: rest, k, v =>
      if k' = k then (k', v) :: rest else (k', v') :: StrMap.set rest k v

/-- JS `Math.round`: nearest integer, ties going toward positive infinity. -/
def jsRound (q : ℚ) : ℤ := ⌊q + 1 / 2⌋

/-- JS `Math.ceil`. -/
def jsCeil (q : ℚ) : ℤ := ⌈q⌉

/-- The result of coercing an arbitrary JS value with `Number(...)`:
either a finite number or a non-finite one (`NaN`, `±Infinity`). -/
inductive JSNumber where
  | finite (q : ℚ)
  | nonfinite
  deriving Repr, DecidableEq

/-- Whitespace trimming on the underlying character list, structurally
recursive so that concrete states evaluate inside the kernel. -/
def strTrim (s : String) : String :=
  ⟨((s.data.dropWhile Char.isWhitespace).reverse.dropWhile
      Char.isWhitespace).reverse⟩

/-- Modelled from the spec: `normalizeString` from the `lresFieldUtils`
collaborator, whose source is not in this repository.  It turns a missing or
all-whitespace string into a falsy value and otherwise yields the trimmed
string (the spec speaks of a "resolvable" id and of normalizing the template
identifier). -/
def normalizeString : Option String → Option String
  | none => none
  | some s => let t := strTrim s; if t = "" then none else some t

/-- The `MAX_LEVELS` constant of the component. -/
def MAX_LEVELS : ℕ := 10

/-- The `MAX_NODES` constant of the component. -/
def MAX_NODES : ℕ := 50

/-- The `DEFAULT_NODE_WIDTH` constant of the component. -/
def DEFAULT_NODE_WIDTH : ℚ := 280

/-- The `DEFAULT_NODE_HEIGHT` constant of the component (the nominal maximum
card height). -/
def DEFAULT_NODE_HEIGHT : ℚ := 180

/-- The `GAP_X` constant of the component. -/
def GAP_X : ℚ := 60

/-- The `GAP_Y` constant of the component. -/
def GAP_Y : ℚ := 70

/-- One node of a fetched hierarchy, restricted to the fields the verified
properties read (`id`, `objectApiName`, the `enableTextWrap` display flag).
Card display fields such as title, icons and details are carried by the
orchestrator unchanged and do not influence layout, centering or the refresh
machine. -/
structure HierarchyNode where
  id : Option String
  objectApiName : Option String
  enableTextWrap : Bool
  deriving Repr, DecidableEq

/-- One parent→child edge of a fetched hierarchy. -/
structure HierarchyEdge where
  parentId : String
  childId : String
  deriving Repr, DecidableEq

/-- The payload resolved by the `getHierarchy` Apex call. -/
structure HierarchyResult where
  rootId : Option String
  nodes : List HierarchyNode
  edges : List HierarchyEdge
  capped : Bool
  capMessage : Option String
  deriving Repr, DecidableEq

/-- A base layout position (`{left, centerX, depth}`) as produced by the
initial tree layout and copied into `layoutMeta.basePositionsById`. -/
structure BasePosition where
  left : ℚ
  centerX : ℚ
  depth : ℕ
  deriving Repr, DecidableEq

/-- A resolved position after row-height re-flow
(`{left, top, depth, centerX, centerY, bottomY}`). -/
structure ResolvedPosition where
  left : ℚ
  top : ℚ
  depth : ℕ
  centerX : ℚ
  centerY : ℚ
  bottomY : ℚ
  deriving Repr, DecidableEq

/-- The `_layoutMeta` record of the orchestrator. -/
structure LayoutMeta where
  basePositionsById : StrMap BasePosition
  positionsById : StrMap ResolvedPosition
  nodeWidth : ℚ
  nodeMaxHeight : ℚ
  gapY : ℚ
  maxDepth : ℕ
  deriving Repr, DecidableEq

/-- The bounds returned by the initial tree layout. -/
structure LayoutBounds where
  width : ℚ
  height : ℚ
  deriving Repr, DecidableEq

/-- An entry of `_nodeEntries`: a node id together with its display card. -/
structure NodeEntry where
  id : String
  card : HierarchyNode
  deriving Repr, DecidableEq

/-- One entry of `positionedNodes`.  The CSS strings built by the source
(`left:...px;top:...px;width:...px;` and the scroll max-height custom
property) are represented by their numeric payloads. -/
structure PositionedNode where
  id : String
  card : HierarchyNode
  enableTextWrap : Bool
  left : ℚ
  top : ℚ
  width : ℚ
  maxHeight : ℚ
  deriving Repr, DecidableEq

/-- One orthogonal connector path: parent bottom-center down to the row
midpoint, across, then down into the child top-center. -/
structure ConnectorPath where
  startX : ℚ
  startY : ℚ
  midY : ℚ
  endX : ℚ
  endY : ℚ
  deriving Repr, DecidableEq

/-- Modelled from the spec: `buildOrthogonalPaths` from the missing
`./layout` module.  One path per edge from the bottom-center of the parent to the
top-center of the child with a horizontal traverse at the row midpoint; an edge
whose endpoints are not both in the position map is skipped, never thrown
on. -/
def buildOrthogonalPaths (edges : List HierarchyEdge)
    (positions : StrMap ResolvedPosition) : List ConnectorPath :=
  edges.filterMap (fun e =>
    match positions.get e.parentId, positions.get e.childId with
    | some p, some c =>
        some { startX := p.centerX, startY := p.bottomY,
               midY := (p.bottomY + c.top) / 2,
               endX := c.centerX, endY := c.top }
    | _, _ => none)

/-- Children of a parent id, in the order the edges were given. -/
def childIdsOf (edges : List HierarchyEdge) (parentId : String) : List String :=
  (edges.filter (fun e => e.parentId = parentId)).map (fun e => e.childId)

/-- Breadth-first depth assignment: consumes a frontier of `(id, depth)`
pairs, recording the first depth seen for each id and enqueueing the children
of the node one level deeper.  Fuel bounds the recursion; the caller passes
enough fuel to exhaust the frontier. -/
def assignDepths (edges : List HierarchyEdge) :
    ℕ → List (String × ℕ) → StrMap ℕ → StrMap ℕ
  | 0, _, acc => acc
  | _ + 1, [], acc => acc
  | fuel + 1, (id, d) :: rest, acc =>
      if (acc.get id).isSome then assignDepths edges fuel rest acc
      else
        assignDepths edges fuel
          (rest ++ (childIdsOf edges id).map (fun c => (c, d + 1)))
          (acc.set id d)

/-- Modelled from the spec: `computeTreeLayout` from the missing `./layout`
module.  Depth is the graph distance from the root (a node with no incoming
edge), and each depth row is laid out left-to-right in stable traversal
order spaced by `nodeWidth + gapX`; nodes not reachable from a root are
excluded.  The parent-over-children mean-centering refinement of the spec only
shifts horizontal coordinates, which no property proved in this development
depends on, so rows here use plain slot order.  Bounds width is the span of
the widest row. -/
def computeTreeLayout (nodes : List HierarchyNode) (edges : List HierarchyEdge)
    (nodeWidth nodeHeight gapX gapY : ℚ) : StrMap BasePosition × LayoutBounds :=
  let ids := nodes.filterMap (fun n => n.id)
  let roots := ids.filter (fun id => ¬ edges.any (fun e => e.childId = id))
  let depths := assignDepths edges (nodes.length + edges.length + 1)
    (roots.map (fun id => (id, 0))) []
  let positions := nodes.foldl (fun (acc : StrMap BasePosition) n =>
    match n.id with
    | none => acc
    | some id =>
        if (acc.get id).isSome then acc
        else
          match depths.get id with
          | none => acc
          | some d =>
              let slot : ℕ := (acc.filter (fun kv => kv.2.depth = d)).length
              let left : ℚ := (slot : ℚ) * (nodeWidth + gapX)
              acc ++ [(id, { left := left, centerX := left + nodeWidth / 2,
                             depth := d })]) []
  let width := positions.foldl (fun w kv => max w (kv.2.left + nodeWidth)) 0
  let maxDepth := positions.foldl (fun m kv => Nat.max m kv.2.depth) 0
  let height : ℚ :=
    if positions.isEmpty then 0
    else ((maxDepth : ℚ) + 1) * (nodeHeight + gapY) - gapY
  (positions, { width := width, height := height })

/-- The effective height the re-flow uses for one node: the measured height
capped at the configured maximum when a positive finite measurement exists,
the nominal maximum height otherwise (lines 413–417 and 436–440 of the
source). -/
def effectiveHeight (nodeMaxHeight : ℚ) (measured : StrMap ℚ) (id : String) : ℚ :=
  match measured.get id with
  | some h => if 0 < h then min h nodeMaxHeight else nodeMaxHeight
  | none => nodeMaxHeight

/-- Array entry `maxHeightByDepth[d]` before the empty-row fill: the running `Math.max`
(seeded with 0) of the effective heights of the base entries at depth `d`. -/
def rowMaxHeightRaw (meta : LayoutMeta) (measured : StrMap ℚ) (d : ℕ) : ℚ :=
  meta.basePositionsById.foldl (fun acc kv =>
    if kv.2.depth = d then
      max acc (effectiveHeight meta.nodeMaxHeight measured kv.1)
    else acc) 0

/-- Array entry `maxHeightByDepth[d]` after the fill loop that replaces a falsy (zero)
row maximum with the nominal maximum height. -/
def rowMaxHeight (meta : LayoutMeta) (measured : StrMap ℚ) (d : ℕ) : ℚ :=
  let r := rowMaxHeightRaw meta measured d
  if r = 0 then meta.nodeMaxHeight else r

/-- Array entry `topByDepth[d]` for `d ≤ maxDepth`: row 0 starts at 0 and each later row
starts below the maximum height of the previous row plus the vertical gap. -/
def rowTop (meta : LayoutMeta) (measured : StrMap ℚ) : ℕ → ℚ
  | 0 => 0
  | d + 1 => rowTop meta measured d + rowMaxHeight meta measured d + meta.gapY

/-- The read `topByDepth[depth] || 0` as done per node: indices beyond `maxDepth` are
out of the array and fall back to 0. -/
def resolvedTop (meta : LayoutMeta) (measured : StrMap ℚ) (d : ℕ) : ℚ :=
  if d ≤ meta.maxDepth then rowTop meta measured d else 0

/-- The adjusted position map the re-flow builds (lines 433–450 of the
source): each base entry keeps `left`, `centerX` and `depth`, receives its
row `top`, and derives `centerY`/`bottomY` from the effective height of
the node. -/
def resolvePositions (meta : LayoutMeta) (measured : StrMap ℚ) :
    StrMap ResolvedPosition :=
  meta.basePositionsById.map (fun kv =>
    (kv.1,
     { left := kv.2.left
       top := resolvedTop meta measured kv.2.depth
       depth := kv.2.depth
       centerX := kv.2.centerX
       centerY := resolvedTop meta measured kv.2.depth
         + effectiveHeight meta.nodeMaxHeight measured kv.1 / 2
       bottomY := resolvedTop meta measured kv.2.depth
         + effectiveHeight meta.nodeMaxHeight measured kv.1 }))

/-- Value `Math.ceil(lastRowBottom + gapY)`: the canvas height the re-flow
assigns. -/
def reflowCanvasHeight (meta : LayoutMeta) (measured : StrMap ℚ) : ℤ :=
  jsCeil (resolvedTop meta measured meta.maxDepth
    + rowMaxHeight meta measured meta.maxDepth + meta.gapY)

/-- The mutable instance state of the orchestrator component, restricted to
the fields the verified behaviour reads or writes. -/
structure ExplorerState where
  recordId : Option String
  templateDeveloperName : Option String
  rootRecordId : Option String
  hierarchy : Option HierarchyResult
  errorMessage : Option String
  isLoading : Bool
  positionedNodes : List PositionedNode
  connectorPaths : List ConnectorPath
  objectApiNames : Option (List String)
  canvasWidth : ℤ
  canvasHeight : ℤ
  scale : ℚ
  translateX : ℚ
  translateY : ℚ
  isPanning : Bool
  panStartX : ℚ
  panStartY : ℚ
  panStartTranslateX : ℚ
  panStartTranslateY : ℚ
  activePointerId : Option ℕ
  pendingCenter : Bool
  layoutMeta : Option LayoutMeta
  centeredHierarchyKey : Option String
  measuredHeightsById : StrMap ℚ
  nodeEntries : List NodeEntry
  edges : List HierarchyEdge
  deriving Repr, DecidableEq

/-- The initial instance state of the component, with the constructor-time field
initializers of the class. -/
def initialExplorerState : ExplorerState where
  recordId := none
  templateDeveloperName := none
  rootRecordId := none
  hierarchy := none
  errorMessage := none
  isLoading := false
  positionedNodes := []
  connectorPaths := []
  objectApiNames := none
  canvasWidth := 0
  canvasHeight := 0
  scale := 7 / 10
  translateX := 0
  translateY := 0
  isPanning := false
  panStartX := 0
  panStartY := 0
  panStartTranslateX := 0
  panStartTranslateY := 0
  activePointerId := none
  pendingCenter := false
  layoutMeta := none
  centeredHierarchyKey := none
  measuredHeightsById := []
  nodeEntries := []
  edges := []

/-- The `effectiveRootRecordId` getter: the normalized root override when
truthy, otherwise the normalized ambient record id. -/
def ExplorerState.effectiveRootRecordId (s : ExplorerState) : Option String :=
  (normalizeString s.rootRecordId).orElse (fun _ => normalizeString s.recordId)

/-- The `capMessage` getter: the cap message of the result when truthy, otherwise
the fallback string. -/
def ExplorerState.capMessage (s : ExplorerState) : String :=
  match s.hierarchy.bind (fun h => h.capMessage) with
  | some m => if m = "" then "Results were capped." else m
  | none => "Results were capped."

/-- The `isCapped` getter. -/
def ExplorerState.isCapped (s : ExplorerState) : Bool :=
  match s.hierarchy with
  | some h => h.capped
  | none => false

/-- Method `applyRowHeightLayout`: resolves row tops from the measured-height map,
stores the adjusted position map, recomputes the canvas height, rebuilds
`positionedNodes` (skipping entries without a position) and the connector
paths.  Returns with no change when no layout meta is present. -/
def ExplorerState.applyRowHeightLayout (s : ExplorerState) : ExplorerState :=
  match s.layoutMeta with
  | none => s
  | some meta =>
      let adjusted := resolvePositions meta s.measuredHeightsById
      { s with
        canvasHeight := reflowCanvasHeight meta s.measuredHeightsById
        layoutMeta := some { meta with positionsById := adjusted }
        positionedNodes := s.nodeEntries.filterMap (fun entry =>
          match adjusted.get entry.id with
          | none => none
          | some pos =>
              some { id := entry.id, card := entry.card,
                     enableTextWrap := entry.card.enableTextWrap,
                     left := pos.left, top := pos.top,
                     width := meta.nodeWidth,
                     maxHeight := meta.nodeMaxHeight })
        connectorPaths := buildOrthogonalPaths s.edges adjusted }

/-- One step of the entry filter of `relayoutWithHeights`: a falsy (empty)
id or a value that does not coerce to a positive finite number is skipped,
anything else is stored. -/
def filterHeightsStep (m : StrMap ℚ) (kv : String × JSNumber) : StrMap ℚ :=
  if kv.1 = "" then m
  else
    match kv.2 with
    | .finite q => if 0 < q then StrMap.set m kv.1 q else m
    | .nonfinite => m

/-- The wholesale filter `relayoutWithHeights` applies to its argument:
a non-object argument contributes nothing, and an entry survives exactly
when its key is a non-empty id and its value coerces to a positive finite
number. -/
def filterHeights (heightsById : Option (List (String × JSNumber))) : StrMap ℚ :=
  match heightsById with
  | none => []
  | some entries => entries.foldl filterHeightsStep []

/-- Method `relayoutWithHeights`: replaces the measured-height map with the
filtered argument, then re-flows.  Entry values are represented by their
`Number(...)` coercion results. -/
def ExplorerState.relayoutWithHeights (s : ExplorerState)
    (heightsById : Option (List (String × JSNumber))) : ExplorerState :=
  ExplorerState.applyRowHeightLayout
    { s with measuredHeightsById := filterHeights heightsById }

/-- Method `normalizeCardForDisplay` restricted to the modelled card fields: the
source spreads the card and coerces the display flags to booleans; icon,
emoji and field-label resolution act only on display fields outside this
model and never change `id` or `enableTextWrap`. -/
def normalizeCardForDisplay (card : HierarchyNode) : HierarchyNode :=
  { card with enableTextWrap := card.enableTextWrap }

/-- Method `extractObjectApiNames`: the distinct normalized object api names of the
nodes in first-seen order, or nothing when there are none. -/
def extractObjectApiNames (nodes : List HierarchyNode) : Option (List String) :=
  let unique := nodes.foldl (fun acc n =>
    match normalizeString n.objectApiName with
    | some apiName => if apiName ∈ acc then acc else acc ++ [apiName]
    | none => acc) []
  if unique = [] then none else some unique

/-- Method `buildRenderModel`: clears the measured heights, runs the initial tree
layout, stores the base positions and layout meta, rebuilds the node
entries (dropping nodes without a truthy id), re-flows and marks centering
pending. -/
def ExplorerState.buildRenderModel (s : ExplorerState) : ExplorerState :=
  let nodes := match s.hierarchy with
    | some h => h.nodes
    | none => []
  let edges := match s.hierarchy with
    | some h => h.edges
    | none => []
  let layout := computeTreeLayout nodes edges
    DEFAULT_NODE_WIDTH DEFAULT_NODE_HEIGHT GAP_X GAP_Y
  let maxDepth := layout.1.foldl (fun m kv => Nat.max m kv.2.depth) 0
  let meta : LayoutMeta :=
    { basePositionsById := layout.1
      positionsById := []
      nodeWidth := DEFAULT_NODE_WIDTH
      nodeMaxHeight := DEFAULT_NODE_HEIGHT
      gapY := GAP_Y
      maxDepth := maxDepth }
  let entries := nodes.filterMap (fun n =>
    match n.id with
    | some id =>
        if id = "" then none
        else some { id := id, card := normalizeCardForDisplay n }
    | none => none)
  let s' := ExplorerState.applyRowHeightLayout
    { s with
      measuredHeightsById := []
      canvasWidth := jsCeil (layout.2.width + GAP_X)
      layoutMeta := some meta
      nodeEntries := entries
      edges := edges }
  { s' with pendingCenter := true }

/-- The request payload of the `getHierarchy` Apex call. -/
structure GetHierarchyRequest where
  templateDeveloperName : String
  effectiveRootRecordId : String
  maxLevels : ℕ
  maxNodes : ℕ
  deriving Repr, DecidableEq

/-- The synchronous part of `refreshHierarchy`: with a missing template
identifier or no resolvable root id it clears the display and issues no
request; otherwise it raises the loading flag, clears the error and issues
the request with the fixed client-side caps. -/
def ExplorerState.refreshStart (s : ExplorerState) :
    ExplorerState × Option GetHierarchyRequest :=
  match normalizeString s.templateDeveloperName, s.effectiveRootRecordId with
  | some tdn, some root =>
      ({ s with isLoading := true, errorMessage := none },
       some { templateDeveloperName := tdn, effectiveRootRecordId := root,
              maxLevels := MAX_LEVELS, maxNodes := MAX_NODES })
  | some _, none => ({ s with hierarchy := none, errorMessage := none }, none)
  | none, _ => ({ s with hierarchy := none, errorMessage := none }, none)

/-- The fetch `then` handler: stores the result, recomputes the object api
names, rebuilds the render model and marks centering pending. -/
def ExplorerState.fetchResolved (s : ExplorerState)
    (result : HierarchyResult) : ExplorerState :=
  let s' := ExplorerState.buildRenderModel
    { s with hierarchy := some result
             objectApiNames := extractObjectApiNames result.nodes }
  { s' with pendingCenter := true }

/-- The fetch `catch` handler: clears the hierarchy and positions and
surfaces the parsed error message (the `parseError` collaborator is
represented by the message it produces; the toast notification is a
presentation side effect outside the state). -/
def ExplorerState.fetchRejected (s : ExplorerState) (message : String) :
    ExplorerState :=
  { s with hierarchy := none
           positionedNodes := []
           connectorPaths := []
           errorMessage := some message
           objectApiNames := none }

/-- How an issued fetch settles. -/
inductive FetchOutcome where
  | success (result : HierarchyResult)
  | failure (message : String)
  deriving Repr, DecidableEq

/-- A whole `refreshHierarchy` cycle: the synchronous part, then — when a
request was issued — the settlement handler followed by the `finally`
clause that clears the loading flag. -/
def ExplorerState.refreshCycle (s : ExplorerState) (outcome : FetchOutcome) :
    ExplorerState :=
  match s.refreshStart with
  | (s', none) => s'
  | (s', some _) =>
      match outcome with
      | .success r => { s'.fetchResolved r with isLoading := false }
      | .failure m => { s'.fetchRejected m with isLoading := false }

/-- A viewport bounding rectangle, as reported by
`getBoundingClientRect`. -/
structure ViewportRect where
  width : ℚ
  height : ℚ
  deriving Repr, DecidableEq

/-- The hierarchy identity key the centering logic builds: template
identifier, effective root id, hierarchy root id, node count and edge
count. -/
def hierarchyKeyOf (s : ExplorerState) : String :=
  ((normalizeString s.templateDeveloperName).getD "") ++ "|" ++
  ((normalizeString s.effectiveRootRecordId).getD "") ++ "|" ++
  ((s.hierarchy.bind (fun h => h.rootId)).getD "") ++ "|" ++
  toString (match s.hierarchy with
    | some h => h.nodes.length
    | none => 0) ++ "|" ++
  toString (match s.hierarchy with
    | some h => h.edges.length
    | none => 0)

/-- The root id resolution chain of the centering logic: the root id of the
hierarchy, else the effective root id, else the id of the first node. -/
def resolvedRootId (s : ExplorerState) : Option String :=
  (normalizeString (s.hierarchy.bind (fun h => h.rootId))).orElse (fun _ =>
    (normalizeString s.effectiveRootRecordId).orElse (fun _ =>
      normalizeString (s.hierarchy.bind (fun h =>
        h.nodes.head?.bind (fun n => n.id)))))

/-- Method `centerRootInViewport`: fails with no change when the viewport element
or layout meta is missing or the viewport reports a non-positive size;
reports already-centered when the identity key matches; otherwise resolves
the root position and sets the rounded centering transform, recording the
key.  The boolean is the return value of the function. -/
def ExplorerState.centerRootInViewport (s : ExplorerState)
    (viewport : Option ViewportRect) : ExplorerState × Bool :=
  match viewport, s.layoutMeta with
  | none, _ => (s, false)
  | some _, none => (s, false)
  | some rect, some meta =>
      if rect.width ≤ 0 ∨ rect.height ≤ 0 then (s, false)
      else
        let key := hierarchyKeyOf s
        if s.centeredHierarchyKey = some key then (s, true)
        else
          match resolvedRootId s with
          | none => (s, false)
          | some rootId =>
              match meta.positionsById.get rootId with
              | none => (s, false)
              | some rootPos =>
                  ({ s with
                     translateX :=
                       ((jsRound (rect.width / 2 - rootPos.centerX * s.scale) : ℤ) : ℚ)
                     translateY :=
                       ((jsRound (rect.height / 2 - rootPos.centerY * s.scale) : ℤ) : ℚ)
                     centeredHierarchyKey := some key }, true)

/-- Method `tryCenterRootInViewport`: attempts centering and clears the pending
flag only on success. -/
def ExplorerState.tryCenterRootInViewport (s : ExplorerState)
    (viewport : Option ViewportRect) : ExplorerState :=
  let r := s.centerRootInViewport viewport
  if r.2 then { r.1 with pendingCenter := false } else r.1

/-- The imperative `recenter()` operation: marks centering pending, then
attempts it immediately. -/
def ExplorerState.recenter (s : ExplorerState)
    (viewport : Option ViewportRect) : ExplorerState :=
  ExplorerState.tryCenterRootInViewport { s with pendingCenter := true } viewport

/-- A pointer-down event on the viewport.  The `closest(...)` hit tests of
the source are represented by flags saying whether the event target lies
within the controls region, a node box, or a card element. -/
structure CanvasPointerEvent where
  button : ℤ
  pointerId : ℕ
  clientX : ℚ
  clientY : ℚ
  targetInControls : Bool
  targetInNode : Bool
  targetInCard : Bool
  deriving Repr, DecidableEq

/-- Method `handleCanvasPointerDown`: ignores the event while panning, when the
target lies in the controls region, a node box or a card, or for a
non-primary button; otherwise starts the pan gesture, records the start
position and translate, and captures the pointer.  The boolean reports
whether pointer capture was requested. -/
def ExplorerState.handleCanvasPointerDown (s : ExplorerState)
    (e : CanvasPointerEvent) : ExplorerState × Bool :=
  if s.isPanning then (s, false)
  else if e.targetInControls ∨ e.targetInNode ∨ e.targetInCard then (s, false)
  else if e.button ≠ 0 then (s, false)
  else
    ({ s with isPanning := true
              activePointerId := some e.pointerId
              panStartX := e.clientX
              panStartY := e.clientY
              panStartTranslateX := s.translateX
              panStartTranslateY := s.translateY }, true)

/-- The adjusted position map currently stored in the layout meta. -/
def positionsOf (s : ExplorerState) : StrMap ResolvedPosition :=
  match s.layoutMeta with
  | some meta => meta.positionsById
  | none => []

/-- The surviving height recorded for an id by one raw size-map entry:
present exactly when the key of the entry equals the id, is non-empty, and its
value coerces to a positive finite number.  Used to characterize the
`relayoutWithHeights` filter. -/
def headKeptHeight (kv : String × JSNumber) (id : String) : Option ℚ :=
  if kv.1 = "" then none
  else
    match kv.2 with
    | .finite q => if kv.1 = id ∧ 0 < q then some q else none
    | .nonfinite => none

/-- The height the `relayoutWithHeights` filter ends up storing for an id:
the last surviving entry for that id wins. -/
def lastKeptHeight : List (String × JSNumber) → String → Option ℚ
  | [], _ => none
  | kv :: rest, id =>
      (lastKeptHeight rest id).orElse (fun _ => headKeptHeight kv id)

/-- A bare node payload used by the concrete scenarios (mirrors the fetch
mocks of the component test suite). -/
def sampleNode (i : String) : HierarchyNode :=
  { id := some i, objectApiName := none, enableTextWrap := false }

/-- The four-node hierarchy of the height-driven re-flow scenario:
root → two children, first child → one grandchild. -/
def demoHierarchy : HierarchyResult :=
  { rootId := some "001"
    nodes := [sampleNode "001", sampleNode "002",
              sampleNode "003", sampleNode "004"]
    edges := [⟨"001", "002"⟩, ⟨"001", "003"⟩, ⟨"002", "004"⟩]
    capped := false
    capMessage := none }

/-- The component configured with an ambient record id and a template, as
in the test suite. -/
def demoBaseState : ExplorerState :=
  { initialExplorerState with
    recordId := some "001"
    templateDeveloperName := some "MyTemplate" }

/-- The state after the four-node hierarchy has loaded successfully. -/
def demoLoaded : ExplorerState :=
  demoBaseState.refreshCycle (.success demoHierarchy)

/-- The explicit measured heights of the re-flow scenario. -/
def demoMeasuredInput : List (String × JSNumber) :=
  [("001", .finite 60), ("002", .finite 150),
   ("003", .finite 80), ("004", .finite 70)]

/-- The four-node state after `relayoutWithHeights` with the explicit
heights. -/
def demoReflowed : ExplorerState :=
  demoLoaded.relayoutWithHeights (some demoMeasuredInput)

/-- A single-node hierarchy (the centering scenario of the test suite). -/
def singleHierarchy : HierarchyResult :=
  { rootId := some "001", nodes := [sampleNode "001"], edges := []
    capped := false, capMessage := none }

/-- The state after the single-node hierarchy has loaded. -/
def singleLoaded : ExplorerState :=
  demoBaseState.refreshCycle (.success singleHierarchy)

/-- The layout meta of `singleLoaded`, spelled out. -/
def singleMeta : LayoutMeta :=
  { basePositionsById := [("001", { left := 0, centerX := 140, depth := 0 })]
    positionsById := [("001",
      { left := 0, top := 0, depth := 0, centerX := 140,
        centerY := 90, bottomY := 180 })]
    nodeWidth := 280
    nodeMaxHeight := 180
    gapY := 70
    maxDepth := 0 }

/-- The resolved root position of `singleLoaded`. -/
def singleRootPos : ResolvedPosition :=
  { left := 0, top := 0, depth := 0, centerX := 140, centerY := 90,
    bottomY := 180 }

/-- The single-node state after a successful centering in an 800×600
viewport. -/
def singleCentered : ExplorerState :=
  (singleLoaded.centerRootInViewport (some ⟨800, 600⟩)).1

/-- A fractional measured height (100.5 px), as `relayoutWithHeights`
accepts from any caller. -/
def fractionalInput : List (String × JSNumber) := [("001", .finite (201 / 2))]

/-- The single-node state re-flowed with the fractional measured height. -/
def fractionalReflowed : ExplorerState :=
  singleLoaded.relayoutWithHeights (some fractionalInput)

/-- A small layout meta with one node at depth 0 and two nodes at depth 1,
used to instantiate the general re-flow theorems. -/
def wMeta : LayoutMeta :=
  { basePositionsById :=
      [("a", { left := 0, centerX := 140, depth := 0 }),
       ("b", { left := 0, centerX := 140, depth := 1 }),
       ("c", { left := 340, centerX := 480, depth := 1 })]
    positionsById := []
    nodeWidth := 280
    nodeMaxHeight := 180
    gapY := 70
    maxDepth := 1 }

/-- The component configured with both an ambient record id and a root
override. -/
def overrideState : ExplorerState :=
  { initialExplorerState with
    recordId := some "001"
    rootRecordId := some "002"
    templateDeveloperName := some "MyTemplate" }

/-- The component configured with an ambient record id but no template. -/
def templateMissingState : ExplorerState :=
  { initialExplorerState with recordId := some "001" }

/-- A capped single-node result carrying a cap message, and one without. -/
def cappedResult : HierarchyResult :=
  { rootId := some "001", nodes := [sampleNode "001"], edges := []
    capped := true, capMessage := some "Capped at 50 nodes" }

/-- A capped result with no cap message. -/
def cappedSilentResult : HierarchyResult :=
  { rootId := some "001", nodes := [sampleNode "001"], edges := []
    capped := true, capMessage := none }

/-- States displaying the capped results. -/
def cappedState : ExplorerState :=
  { initialExplorerState with hierarchy := some cappedResult }

/-- State displaying the capped result that has no message. -/
def cappedSilentState : ExplorerState :=
  { initialExplorerState with hierarchy := some cappedSilentResult }

/-- A pointer-down whose target sits inside a node box. -/
def nodePointerDown : CanvasPointerEvent :=
  { button := 0, pointerId := 1, clientX := 10, clientY := 10,
    targetInControls := false, targetInNode := true, targetInCard := false }

/-- A pointer-down on the empty canvas background. -/
def backgroundPointerDown : CanvasPointerEvent :=
  { button := 0, pointerId := 1, clientX := 10, clientY := 10,
    targetInControls := false, targetInNode := false, targetInCard := false }

set_option maxRecDepth 10000

/-- A stored binding is a member of the underlying entry list. -/
theorem StrMap.get_mem {β : Type} :
    ∀ {m : StrMap β} {k : String} {v : β},
      StrMap.get m k = some v → (k, v) ∈ m
  | [], _, _, h => by simp [StrMap.get] at h
  | (k', v') :: rest, k, v, h => by
      rw [StrMap.get] at h
      by_cases hk : k' = k
      · rw [if_pos hk] at h
        injection h with h
        subst hk
        subst h
        exact List.mem_cons_self _ _
      · rw [if_neg hk] at h
        exact List.mem_cons_of_mem _ (StrMap.get_mem h)

/-- Lookup after a key-preserving map over the entries. -/
theorem StrMap.get_map_keyed {β γ : Type} (f : String → β → γ) :
    ∀ (m : StrMap β) (k : String),
      StrMap.get (m.map (fun kv => (kv.1, f kv.1 kv.2))) k
        = (StrMap.get m k).map (f k)
  | [], _ => rfl
  | (k', v') :: rest, k => by
      rw [List.map_cons]
      rw [StrMap.get, StrMap.get]
      by_cases hk : k' = k
      · subst hk
        rw [if_pos rfl, if_pos rfl]
        rfl
      · rw [if_neg hk, if_neg hk]
        exact StrMap.get_map_keyed f rest k

/-- Lookup after `Map.set` behaves like a pointwise update. -/
theorem StrMap.get_set_eq {β : Type} :
    ∀ (m : StrMap β) (k : String) (v : β) (k2 : String),
      StrMap.get (StrMap.set m k v) k2
        = if k = k2 then some v else StrMap.get m k2
  | [], k, v, k2 => by
      simp [StrMap.set, StrMap.get]
  | (k', v') :: rest, k, v, k2 => by
      by_cases h1 : k' = k
      · subst h1
        by_cases h2 : k' = k2
        · subst h2
          simp [StrMap.set, StrMap.get]
        · simp [StrMap.set, StrMap.get, h2]
      · by_cases h2 : k' = k2
        · subst h2
          have hk : ¬ k = k' := fun hk => h1 hk.symm
          simp [StrMap.set, StrMap.get, h1, hk]
        · simp [StrMap.set, StrMap.get, h1, h2,
            StrMap.get_set_eq rest k v k2]

/-- `Option.orElse` is associative. -/
theorem option_orElse_assoc {α : Type} (a : Option α)
    (f g : Unit → Option α) :
    Option.orElse (Option.orElse a f) g
      = Option.orElse a (fun _ => Option.orElse (f ()) g) := by
  cases a <;> rfl

/-- Row tops are the running sum of the shallower row maxima plus the
vertical gap. -/
theorem rowTop_eq_sum (meta : LayoutMeta) (measured : StrMap ℚ) :
    ∀ d : ℕ, rowTop meta measured d
      = ∑ i ∈ Finset.range d, (rowMaxHeight meta measured i + meta.gapY)
  | 0 => by rw [rowTop, Finset.range_zero, Finset.sum_empty]
  | d + 1 => by
      rw [rowTop, rowTop_eq_sum meta measured d, Finset.sum_range_succ,
        add_assoc]

/-- Lookup in the re-flowed position map is the base lookup pushed through
the per-node position adjustment. -/
theorem get_resolvePositions (meta : LayoutMeta) (measured : StrMap ℚ)
    (id : String) :
    StrMap.get (resolvePositions meta measured) id
      = (StrMap.get meta.basePositionsById id).map (fun bp =>
          { left := bp.left
            top := resolvedTop meta measured bp.depth
            depth := bp.depth
            centerX := bp.centerX
            centerY := resolvedTop meta measured bp.depth
              + effectiveHeight meta.nodeMaxHeight measured id / 2
            bottomY := resolvedTop meta measured bp.depth
              + effectiveHeight meta.nodeMaxHeight measured id }) := by
  unfold resolvePositions
  exact StrMap.get_map_keyed (fun id bp =>
    ({ left := bp.left
       top := resolvedTop meta measured bp.depth
       depth := bp.depth
       centerX := bp.centerX
       centerY := resolvedTop meta measured bp.depth
         + effectiveHeight meta.nodeMaxHeight measured id / 2
       bottomY := resolvedTop meta measured bp.depth
         + effectiveHeight meta.nodeMaxHeight measured id } : ResolvedPosition))
    meta.basePositionsById id

/-- The re-flow never touches the measured-height map. -/
theorem applyRowHeightLayout_measured (s : ExplorerState) :
    s.applyRowHeightLayout.measuredHeightsById = s.measuredHeightsById := by
  rw [ExplorerState.applyRowHeightLayout]
  cases s.layoutMeta <;> rfl

/-- Row maxima ignore the stored resolved positions. -/
theorem rowMaxHeight_posUpdate (meta : LayoutMeta)
    (adj : StrMap ResolvedPosition) (m : StrMap ℚ) (d : ℕ) :
    rowMaxHeight { meta with positionsById := adj } m d
      = rowMaxHeight meta m d := rfl

/-- Row tops ignore the stored resolved positions. -/
theorem rowTop_posUpdate (meta : LayoutMeta) (adj : StrMap ResolvedPosition)
    (m : StrMap ℚ) : ∀ d : ℕ,
    rowTop { meta with positionsById := adj } m d = rowTop meta m d
  | 0 => rfl
  | d + 1 => by
      rw [rowTop, rowTop, rowTop_posUpdate meta adj m d]
      rfl

/-- Per-node resolved tops ignore the stored resolved positions. -/
theorem resolvedTop_posUpdate (meta : LayoutMeta)
    (adj : StrMap ResolvedPosition) (m : StrMap ℚ) (d : ℕ) :
    resolvedTop { meta with positionsById := adj } m d
      = resolvedTop meta m d := by
  rw [resolvedTop, resolvedTop, rowTop_posUpdate]

/-- The re-flowed position map ignores the stored resolved positions. -/
theorem resolvePositions_posUpdate (meta : LayoutMeta)
    (adj : StrMap ResolvedPosition) (m : StrMap ℚ) :
    resolvePositions { meta with positionsById := adj } m
      = resolvePositions meta m := by
  simp only [resolvePositions, resolvedTop_posUpdate]

/-- The re-flowed canvas height ignores the stored resolved positions. -/
theorem reflowCanvasHeight_posUpdate (meta : LayoutMeta)
    (adj : StrMap ResolvedPosition) (m : StrMap ℚ) :
    reflowCanvasHeight { meta with positionsById := adj } m
      = reflowCanvasHeight meta m := by
  rw [reflowCanvasHeight, reflowCanvasHeight, resolvedTop_posUpdate]
  rfl

/-- C2: row-height re-flow is idempotent — running `applyRowHeightLayout` a
second time with an unchanged measured-height map reproduces the first
entire output state of the first run: the resolved position of every node (left, top,
depth, centerX, centerY, bottomY), the positioned-node list, the connector
paths and the canvas height. -/
theorem reflow_idempotent (s : ExplorerState) :
    s.applyRowHeightLayout.applyRowHeightLayout = s.applyRowHeightLayout := by
  obtain ⟨rid, tdn, rrid, hier, err, load, pn, cp, oan, cw, ch, sc, tx, ty,
    pan, psx, psy, pstx, psty, apid, pc, lm, chk, mh, ne, ed⟩ := s
  cases lm with
  | none => rfl
  | some meta =>
      simp only [ExplorerState.applyRowHeightLayout,
        resolvePositions_posUpdate, reflowCanvasHeight_posUpdate]

/-- C3: row alignment invariant — in any position map produced by the
row-height re-flow, two nodes at the same depth receive the same resolved
`top`. -/
theorem row_alignment_invariant :
    ∀ (meta : LayoutMeta) (measured : StrMap ℚ) (id1 id2 : String)
      (p1 p2 : ResolvedPosition),
      StrMap.get (resolvePositions meta measured) id1 = some p1 →
      StrMap.get (resolvePositions meta measured) id2 = some p2 →
      p1.depth = p2.depth → p1.top = p2.top := by
  intro meta measured id1 id2 p1 p2 h1 h2 hd
  rw [get_resolvePositions] at h1 h2
  obtain ⟨b1, hb1, hp1⟩ := Option.map_eq_some'.mp h1
  obtain ⟨b2, hb2, hp2⟩ := Option.map_eq_some'.mp h2
  subst hp1
  subst hp2
  show resolvedTop meta measured b1.depth = resolvedTop meta measured b2.depth
  exact congrArg (resolvedTop meta measured) hd

/-- Witness for C3 at a concrete layout: the two depth-1 nodes of `wMeta`
share the resolved top 250. -/
theorem row_alignment_invariant_witness :
    ∃ p1 p2 : ResolvedPosition,
      StrMap.get (resolvePositions wMeta []) "b" = some p1 ∧
      StrMap.get (resolvePositions wMeta []) "c" = some p2 ∧
      p1.depth = p2.depth ∧ p1.top = 250 ∧ p1.top = p2.top := by
  have hb : StrMap.get (resolvePositions wMeta []) "b"
      = some { left := 0, top := 250, depth := 1, centerX := 140,
               centerY := 340, bottomY := 430 } := by
    with_unfolding_all decide
  have hc : StrMap.get (resolvePositions wMeta []) "c"
      = some { left := 340, top := 250, depth := 1, centerX := 480,
               centerY := 340, bottomY := 430 } := by
    with_unfolding_all decide
  exact ⟨_, _, hb, hc, rfl, rfl,
    row_alignment_invariant wMeta [] "b" "c" _ _ hb hc rfl⟩

/-- C1 (amended): for every layout meta whose base entries respect the
recorded maximum depth (as `buildRenderModel` guarantees for a loaded
hierarchy) and every measured-height map, the re-flow gives each node at
depth `d` the row top `∑ of (row maximum effective height + gapY)` over the
shallower rows, `centerY = top + effectiveHeight / 2` and
`bottomY = top + effectiveHeight`, where the effective height of a node is
`min(measured, nominal max)` for a positive measurement and the nominal
maximum otherwise; the canvas height is the ceiling of
(bottom of the last row + gapY).  The four-node scenario places the grandchild
at top 500 with nominal heights and at top 350 with the explicit heights
{60, 150, 80, 70}. -/
theorem row_height_reflow_spec :
    (∀ (meta : LayoutMeta) (measured : StrMap ℚ),
      (∀ kv ∈ meta.basePositionsById, kv.2.depth ≤ meta.maxDepth) →
      (∀ (id : String) (pos : ResolvedPosition),
        StrMap.get (resolvePositions meta measured) id = some pos →
        pos.top = ∑ d ∈ Finset.range pos.depth,
            (rowMaxHeight meta measured d + meta.gapY) ∧
        pos.centerY = pos.top
            + effectiveHeight meta.nodeMaxHeight measured id / 2 ∧
        pos.bottomY = pos.top
            + effectiveHeight meta.nodeMaxHeight measured id) ∧
      reflowCanvasHeight meta measured
        = jsCeil (∑ d ∈ Finset.range (meta.maxDepth + 1),
            (rowMaxHeight meta measured d + meta.gapY))) ∧
    (∃ pos : ResolvedPosition,
      StrMap.get (positionsOf demoLoaded) "004" = some pos ∧ pos.top = 500) ∧
    (∃ pos : ResolvedPosition,
      StrMap.get (positionsOf demoReflowed) "004" = some pos ∧
      pos.top = 350) := by
  refine ⟨?_, ?_, ?_⟩
  · intro meta measured hD
    constructor
    · intro id pos hpos
      rw [get_resolvePositions] at hpos
      obtain ⟨bp, hbp, hmk⟩ := Option.map_eq_some'.mp hpos
      subst hmk
      have hdep : bp.depth ≤ meta.maxDepth := hD _ (StrMap.get_mem hbp)
      refine ⟨?_, rfl, rfl⟩
      show resolvedTop meta measured bp.depth
        = ∑ d ∈ Finset.range bp.depth,
            (rowMaxHeight meta measured d + meta.gapY)
      rw [resolvedTop, if_pos hdep, rowTop_eq_sum]
    · rw [reflowCanvasHeight, resolvedTop, if_pos (le_refl _),
        rowTop_eq_sum, Finset.sum_range_succ, add_assoc]
  · exact ⟨{ left := 0, top := 500, depth := 2, centerX := 140,
             centerY := 590, bottomY := 680 },
      by with_unfolding_all decide, rfl⟩
  · exact ⟨{ left := 0, top := 350, depth := 2, centerX := 140,
             centerY := 385, bottomY := 420 },
      by with_unfolding_all decide, rfl⟩

/-- Witness for C1 at a concrete layout: the depth-1 node of `wMeta` under
an empty measured-height map gets top `250 = (180 + 70)`, the running sum
over the single shallower row. -/
theorem row_height_reflow_spec_witness :
    (∀ kv ∈ wMeta.basePositionsById, kv.2.depth ≤ wMeta.maxDepth) ∧
    (∃ pos : ResolvedPosition,
      StrMap.get (resolvePositions wMeta []) "b" = some pos ∧
      pos.top = ∑ d ∈ Finset.range pos.depth,
        (rowMaxHeight wMeta [] d + wMeta.gapY)) := by
  have hD : ∀ kv ∈ wMeta.basePositionsById, kv.2.depth ≤ wMeta.maxDepth := by
    with_unfolding_all decide
  have hb : StrMap.get (resolvePositions wMeta []) "b"
      = some { left := 0, top := 250, depth := 1, centerX := 140,
               centerY := 340, bottomY := 430 } := by
    with_unfolding_all decide
  exact ⟨hD, _,  hb,
    ((row_height_reflow_spec.1 wMeta [] hD).1 "b" _ hb).1⟩

/-- C1 counterexample to the claim as stated: with the fractional measured
height 100.5 on the single-node hierarchy, the bottom of the last row is
100.5, so the canvas height of the claim as stated would be `100.5 + 70 = 170.5`, but the code
stores the ceiling `171`. -/
theorem canvas_height_rounding_counterexample :
    (∃ pos : ResolvedPosition,
      StrMap.get (positionsOf fractionalReflowed) "001" = some pos ∧
      pos.bottomY = 201 / 2) ∧
    fractionalReflowed.canvasHeight = 171 ∧
    ((fractionalReflowed.canvasHeight : ℚ) ≠ (201 : ℚ) / 2 + GAP_Y) := by
  refine ⟨⟨{ left := 0, top := 0, depth := 0, centerX := 140,
             centerY := 201 / 4, bottomY := 201 / 2 }, ?_, rfl⟩, ?_, ?_⟩
  · with_unfolding_all decide
  · with_unfolding_all decide
  · with_unfolding_all decide

/-- C4: with a positively sized viewport, a not-yet-centered hierarchy key
and a resolvable root position, centering sets the transform to
`round(viewport/2 − rootCenter·scale)` on both axes and succeeds; with a
missing viewport or a zero-sized one it fails, changes nothing, and leaves
the pending-centering flag as it was for a later retry. -/
theorem centering_transform_spec :
    (∀ (s : ExplorerState) (rect : ViewportRect) (meta : LayoutMeta)
        (rootId : String) (rootPos : ResolvedPosition),
      0 < rect.width → 0 < rect.height →
      s.layoutMeta = some meta →
      s.centeredHierarchyKey ≠ some (hierarchyKeyOf s) →
      resolvedRootId s = some rootId →
      StrMap.get meta.positionsById rootId = some rootPos →
      s.centerRootInViewport (some rect) =
        ({ s with
           translateX :=
             ((jsRound (rect.width / 2 - rootPos.centerX * s.scale) : ℤ) : ℚ)
           translateY :=
             ((jsRound (rect.height / 2 - rootPos.centerY * s.scale) : ℤ) : ℚ)
           centeredHierarchyKey := some (hierarchyKeyOf s) }, true)) ∧
    (∀ (s : ExplorerState) (viewport : Option ViewportRect),
      viewport = none ∨
        (∃ rect, viewport = some rect ∧
          (rect.width ≤ 0 ∨ rect.height ≤ 0)) →
      s.centerRootInViewport viewport = (s, false) ∧
      s.tryCenterRootInViewport viewport = s) := by
  constructor
  · intro s rect meta rootId rootPos h1 h2 hmeta hkey hroot hpos
    have hwh : ¬ (rect.width ≤ 0 ∨ rect.height ≤ 0) :=
      not_or.mpr ⟨not_le.mpr h1, not_le.mpr h2⟩
    simp only [ExplorerState.centerRootInViewport, hmeta, hroot, hpos]
    rw [if_neg hwh, if_neg hkey]
  · intro s viewport hcase
    rcases hcase with rfl | ⟨rect, rfl, hwh⟩
    · exact ⟨rfl, rfl⟩
    · obtain ⟨rid, tdn, rrid, hier, err, load, pn, cp, oan, cw, ch, sc, tx,
        ty, pan, psx, psy, pstx, psty, apid, pc, lm, chk, mh, ne, ed⟩ := s
      cases lm with
      | none => exact ⟨rfl, rfl⟩
      | some meta =>
          constructor
          · simp only [ExplorerState.centerRootInViewport]
            rw [if_pos hwh]
          · simp only [ExplorerState.tryCenterRootInViewport,
              ExplorerState.centerRootInViewport]
            rw [if_pos hwh]
            rfl

/-- Witness for C4: the single-node hierarchy in an 800×600 viewport is
centered with `translateX = round(400 − 140·0.7) = 302` and
`translateY = round(300 − 90·0.7) = 237`, the values the component test
expects; a zero-width viewport leaves the state untouched. -/
theorem centering_transform_spec_witness :
    singleLoaded.centerRootInViewport (some ⟨800, 600⟩) =
      ({ singleLoaded with
         translateX := 302
         translateY := 237
         centeredHierarchyKey := some "MyTemplate|001|001|1|0" }, true) ∧
    singleLoaded.centerRootInViewport (some ⟨0, 600⟩) =
      (singleLoaded, false) := by
  constructor
  · have h := centering_transform_spec.1 singleLoaded ⟨800, 600⟩ singleMeta
      "001" singleRootPos (by with_unfolding_all decide)
      (by with_unfolding_all decide) (by with_unfolding_all decide)
      (by with_unfolding_all decide) (by with_unfolding_all decide)
      (by with_unfolding_all decide)
    rw [h]
    with_unfolding_all decide
  · exact (centering_transform_spec.2 singleLoaded (some ⟨0, 600⟩)
      (Or.inr ⟨⟨0, 600⟩, rfl, Or.inl (le_refl 0)⟩)).1

/-- C5: once the centering key matches the current hierarchy identity,
centering reports already-centered and the whole state — in particular the
transform — is unchanged, whatever the current positions and measured
heights are; `recenter()` then only clears the pending flag. -/
theorem centering_idempotent :
    ∀ (s : ExplorerState) (rect : ViewportRect) (meta : LayoutMeta),
      0 < rect.width → 0 < rect.height →
      s.layoutMeta = some meta →
      s.centeredHierarchyKey = some (hierarchyKeyOf s) →
      s.centerRootInViewport (some rect) = (s, true) ∧
      s.recenter (some rect) = { s with pendingCenter := false } := by
  intro s rect meta h1 h2 hmeta hkey
  have hwh : ¬ (rect.width ≤ 0 ∨ rect.height ≤ 0) :=
    not_or.mpr ⟨not_le.mpr h1, not_le.mpr h2⟩
  constructor
  · simp only [ExplorerState.centerRootInViewport, hmeta]
    rw [if_neg hwh, if_pos hkey]
  · have hkey2 : s.centeredHierarchyKey
        = some (hierarchyKeyOf
            { s with pendingCenter := true, layoutMeta := some meta }) := hkey
    simp only [ExplorerState.recenter, ExplorerState.tryCenterRootInViewport,
      ExplorerState.centerRootInViewport, hmeta]
    rw [if_neg hwh, if_pos hkey2]
    rfl

/-- Witness for C5: after the successful centering of the single-node
hierarchy, a second centering in the same viewport reports
already-centered and returns the state unchanged, and `recenter()` only
clears the pending flag; the translates stay at 302/237. -/
theorem centering_idempotent_witness :
    singleCentered.centerRootInViewport (some ⟨800, 600⟩)
      = (singleCentered, true) ∧
    singleCentered.recenter (some ⟨800, 600⟩)
      = { singleCentered with pendingCenter := false } ∧
    singleCentered.translateX = 302 ∧ singleCentered.translateY = 237 := by
  have h := centering_idempotent singleCentered ⟨800, 600⟩
    { singleMeta with positionsById := singleMeta.positionsById }
    (by with_unfolding_all decide) (by with_unfolding_all decide)
    (by with_unfolding_all decide) (by with_unfolding_all decide)
  exact ⟨h.1, h.2, by with_unfolding_all decide, by with_unfolding_all decide⟩

/-- One filter step looked up afterwards: the own contribution of the step wins
over the accumulator. -/
theorem get_filterHeightsStep (acc : StrMap ℚ) (kv : String × JSNumber)
    (id : String) :
    StrMap.get (filterHeightsStep acc kv) id
      = Option.orElse (headKeptHeight kv id)
          (fun _ => StrMap.get acc id) := by
  obtain ⟨k, val⟩ := kv
  rw [filterHeightsStep, headKeptHeight]
  by_cases hk0 : k = ""
  · rw [if_pos hk0, if_pos hk0]
    rfl
  · rw [if_neg hk0, if_neg hk0]
    cases val with
    | nonfinite => rfl
    | finite q =>
        dsimp only
        by_cases hq : 0 < q
        · rw [if_pos hq, StrMap.get_set_eq]
          by_cases hkid : k = id
          · rw [if_pos hkid, if_pos ⟨hkid, hq⟩]
            rfl
          · rw [if_neg hkid, if_neg (fun hc => hkid hc.1)]
            rfl
        · rw [if_neg hq, if_neg (fun hc => hq hc.2)]
          rfl

/-- The whole fold looked up afterwards: the last surviving entry wins,
falling back to the accumulator. -/
theorem get_foldl_filterHeightsStep :
    ∀ (es : List (String × JSNumber)) (acc : StrMap ℚ) (id : String),
      StrMap.get (es.foldl filterHeightsStep acc) id
        = Option.orElse (lastKeptHeight es id)
            (fun _ => StrMap.get acc id)
  | [], _, _ => rfl
  | kv :: rest, acc, id => by
      rw [List.foldl_cons, get_foldl_filterHeightsStep rest _ id,
        get_filterHeightsStep, lastKeptHeight]
      simp only [option_orElse_assoc]

/-- No entry with the id means no surviving height. -/
theorem headKeptHeight_eq_none {kv : String × JSNumber} {id : String}
    (h : kv.1 ≠ id) : headKeptHeight kv id = none := by
  obtain ⟨k, val⟩ := kv
  rw [headKeptHeight]
  by_cases hk0 : k = ""
  · rw [if_pos hk0]
  · rw [if_neg hk0]
    cases val with
    | nonfinite => rfl
    | finite q =>
        dsimp only
        rw [if_neg (fun hc => h hc.1)]

/-- A key absent from the raw entries never survives the filter. -/
theorem lastKeptHeight_eq_none :
    ∀ {es : List (String × JSNumber)} {id : String},
      id ∉ es.map Prod.fst → lastKeptHeight es id = none
  | [], _, _ => rfl
  | kv :: rest, id, h => by
      rw [lastKeptHeight]
      have h1 : id ∉ rest.map Prod.fst := by
        intro hm
        exact h (by rw [List.map_cons]; exact List.mem_cons_of_mem _ hm)
      have h2 : kv.1 ≠ id := by
        intro he
        exact h (by rw [List.map_cons, he]; exact List.mem_cons_self _ _)
      rw [lastKeptHeight_eq_none h1, headKeptHeight_eq_none h2]
      rfl

/-- With the distinct keys a JS object always has, a height survives the
filter exactly when its entry has a non-empty key and a positive finite
value. -/
theorem lastKeptHeight_eq_some_iff :
    ∀ (es : List (String × JSNumber)), (es.map Prod.fst).Nodup →
      ∀ (id : String) (h : ℚ),
        (lastKeptHeight es id = some h ↔
          ((id, JSNumber.finite h) ∈ es ∧ id ≠ "" ∧ 0 < h))
  | [], _, id, h => by simp [lastKeptHeight]
  | kv :: rest, hnd, id, h => by
      rw [List.map_cons, List.nodup_cons] at hnd
      obtain ⟨hk, hrest⟩ := hnd
      rw [lastKeptHeight]
      obtain ⟨k, val⟩ := kv
      by_cases hkid : k = id
      · subst hkid
        have hrnone : lastKeptHeight rest k = none :=
          lastKeptHeight_eq_none hk
        rw [hrnone]
        have hk2 : k ∉ rest.map Prod.fst := hk
        have hmem : ∀ v : JSNumber, (k, v) ∉ rest := by
          intro v hv
          exact hk2 (List.mem_map_of_mem Prod.fst hv)
        show headKeptHeight (k, val) k = some h ↔ _
        rw [headKeptHeight]
        by_cases hk0 : k = ""
        · rw [if_pos hk0]
          simp [hk0]
        · rw [if_neg hk0]
          cases val with
          | nonfinite =>
              dsimp only
              constructor
              · intro hc
                exact absurd hc (by simp)
              · rintro ⟨hm, -, -⟩
                rcases List.mem_cons.mp hm with he | hm'
                · exact absurd (congrArg Prod.snd he) (by simp)
                · exact absurd hm' (hmem _)
          | finite q =>
              dsimp only
              by_cases hq : 0 < q
              · rw [if_pos ⟨rfl, hq⟩]
                constructor
                · intro hqh
                  injection hqh with hqh
                  exact ⟨by rw [hqh]; exact List.mem_cons_self _ _, hk0,
                    hqh ▸ hq⟩
                · rintro ⟨hm, -, hp⟩
                  rcases List.mem_cons.mp hm with he | hm'
                  · have : JSNumber.finite h = JSNumber.finite q :=
                      congrArg Prod.snd he
                    injection this with this
                    rw [this]
                  · exact absurd hm' (hmem _)
              · rw [if_neg (fun hc => hq hc.2)]
                constructor
                · intro hc
                  exact absurd hc (by simp)
                · rintro ⟨hm, -, hp⟩
                  rcases List.mem_cons.mp hm with he | hm'
                  · have : JSNumber.finite h = JSNumber.finite q :=
                      congrArg Prod.snd he
                    injection this with this
                    exact absurd (this ▸ hp) hq
                  · exact absurd hm' (hmem _)
      · rw [headKeptHeight_eq_none (show (k, val).1 ≠ id from hkid)]
        have horel : ∀ a : Option ℚ,
            Option.orElse a (fun _ => (none : Option ℚ)) = a := by
          intro a
          cases a <;> rfl
        rw [horel, lastKeptHeight_eq_some_iff rest hrest id h]
        constructor
        · rintro ⟨hm, ha, hb⟩
          exact ⟨List.mem_cons_of_mem _ hm, ha, hb⟩
        · rintro ⟨hm, ha, hb⟩
          rcases List.mem_cons.mp hm with he | hm'
          · exact absurd (congrArg Prod.fst he).symm hkid
          · exact ⟨hm', ha, hb⟩

/-- C6: `relayoutWithHeights` replaces the measured-height map wholesale by
the filtered argument — keeping exactly the entries with a non-empty id
whose value coerces to a positive finite number, and treating a non-object
argument as empty — and then performs one re-flow; being a total function
of the argument, it never throws. -/
theorem relayout_with_heights_spec :
    (∀ (s : ExplorerState) (arg : Option (List (String × JSNumber))),
      (s.relayoutWithHeights arg).measuredHeightsById = filterHeights arg ∧
      s.relayoutWithHeights arg =
        ExplorerState.applyRowHeightLayout
          { s with measuredHeightsById := filterHeights arg }) ∧
    (∀ id : String, StrMap.get (filterHeights none) id = none) ∧
    (∀ entries : List (String × JSNumber),
      (entries.map Prod.fst).Nodup →
      ∀ (id : String) (h : ℚ),
        (StrMap.get (filterHeights (some entries)) id = some h ↔
          ((id, JSNumber.finite h) ∈ entries ∧ id ≠ "" ∧ 0 < h))) := by
  refine ⟨?_, ?_, ?_⟩
  · intro s arg
    exact ⟨applyRowHeightLayout_measured _, rfl⟩
  · intro id
    rfl
  · intro entries hnd id h
    have hfold : StrMap.get (filterHeights (some entries)) id
        = Option.orElse (lastKeptHeight entries id)
            (fun _ => StrMap.get ([] : StrMap ℚ) id) :=
      get_foldl_filterHeightsStep entries [] id
    have hnil : Option.orElse (lastKeptHeight entries id)
        (fun _ => StrMap.get ([] : StrMap ℚ) id)
          = lastKeptHeight entries id := by
      cases lastKeptHeight entries id <;> rfl
    rw [hfold, hnil]
    exact lastKeptHeight_eq_some_iff entries hnd id h

/-- Witness for C6 on a mixed raw size map: the well-formed entry survives,
the empty-keyed, non-finite and non-positive ones are discarded. -/
theorem relayout_with_heights_spec_witness :
    ([("001", JSNumber.finite 60), ("", JSNumber.finite 5),
      ("002", JSNumber.nonfinite),
      ("003", JSNumber.finite (-2))].map Prod.fst).Nodup ∧
    StrMap.get (filterHeights (some
      [("001", JSNumber.finite 60), ("", JSNumber.finite 5),
       ("002", JSNumber.nonfinite),
       ("003", JSNumber.finite (-2))])) "001" = some 60 ∧
    StrMap.get (filterHeights (some
      [("001", JSNumber.finite 60), ("", JSNumber.finite 5),
       ("002", JSNumber.nonfinite),
       ("003", JSNumber.finite (-2))])) "003" = none := by
  have hnd : ([("001", JSNumber.finite 60), ("", JSNumber.finite 5),
      ("002", JSNumber.nonfinite),
      ("003", JSNumber.finite (-2))].map Prod.fst).Nodup := by
    with_unfolding_all decide
  refine ⟨hnd, ?_, by with_unfolding_all decide⟩
  exact (relayout_with_heights_spec.2.2 _ hnd "001" 60).mpr
    ⟨by with_unfolding_all decide, by with_unfolding_all decide,
     by with_unfolding_all decide⟩

/-- C7: whenever `refreshHierarchy` issues a request, it carries the fixed
client-side caps `maxLevels = 10` and `maxNodes = 50` and the effective
root id — which equals the normalized root override whenever that override
is present. -/
theorem fetch_request_spec :
    ∀ (s s' : ExplorerState) (req : GetHierarchyRequest),
      s.refreshStart = (s', some req) →
      req.maxLevels = 10 ∧ req.maxNodes = 50 ∧
      some req.effectiveRootRecordId = s.effectiveRootRecordId ∧
      (∀ rid : String, normalizeString s.rootRecordId = some rid →
        req.effectiveRootRecordId = rid) := by
  intro s s' req hstart
  rw [ExplorerState.refreshStart] at hstart
  rcases htd : normalizeString s.templateDeveloperName with _ | tdn
  · rw [htd] at hstart
    simp at hstart
  · rcases her : s.effectiveRootRecordId with _ | root
    · rw [htd, her] at hstart
      simp at hstart
    · rw [htd, her] at hstart
      simp only [Prod.mk.injEq, Option.some.injEq] at hstart
      obtain ⟨-, hreq⟩ := hstart
      subst hreq
      refine ⟨rfl, rfl, rfl, ?_⟩
      intro rid hrid
      have h3 : s.effectiveRootRecordId = some rid := by
        rw [ExplorerState.effectiveRootRecordId, hrid]
        rfl
      rw [her] at h3
      injection h3 with h3

/-- Witness for C7: with ambient id "001" and root override "002", the
issued request uses "002" and the fixed caps — the root-override precedence
scenario of the test suite. -/
theorem fetch_request_spec_witness :
    ∃ req : GetHierarchyRequest,
      overrideState.refreshStart.2 = some req ∧
      req.maxLevels = 10 ∧ req.maxNodes = 50 ∧
      req.effectiveRootRecordId = "002" := by
  have hstart : overrideState.refreshStart =
      ({ overrideState with isLoading := true, errorMessage := none },
       some { templateDeveloperName := "MyTemplate"
              effectiveRootRecordId := "002"
              maxLevels := 10
              maxNodes := 50 }) := by
    with_unfolding_all decide
  obtain ⟨h10, h50, heff, hprec⟩ := fetch_request_spec overrideState _ _ hstart
  exact ⟨_, by rw [hstart], h10, h50,
    hprec "002" (by with_unfolding_all decide)⟩

/-- C8: a pointer-down whose target lies within the controls region, a node
box or a card leaves the state untouched and requests no pointer capture;
a primary-button pointer-down on the empty background while not panning
starts the pan gesture and captures the pointer. -/
theorem pan_gesture_isolation :
    (∀ (s : ExplorerState) (e : CanvasPointerEvent),
      (e.targetInControls = true ∨ e.targetInNode = true ∨
        e.targetInCard = true) →
      s.handleCanvasPointerDown e = (s, false)) ∧
    (∀ (s : ExplorerState) (e : CanvasPointerEvent),
      s.isPanning = false → e.targetInControls = false →
      e.targetInNode = false → e.targetInCard = false → e.button = 0 →
      s.handleCanvasPointerDown e =
        ({ s with isPanning := true
                  activePointerId := some e.pointerId
                  panStartX := e.clientX
                  panStartY := e.clientY
                  panStartTranslateX := s.translateX
                  panStartTranslateY := s.translateY }, true)) := by
  constructor
  · intro s e htarget
    rw [ExplorerState.handleCanvasPointerDown]
    by_cases hp : s.isPanning = true
    · rw [if_pos hp]
    · rw [if_neg hp, if_pos htarget]
  · intro s e hpan hc hn hcd hb
    rw [ExplorerState.handleCanvasPointerDown]
    rw [if_neg (by rw [hpan]; exact Bool.false_ne_true)]
    rw [if_neg (by rw [hc, hn, hcd]; simp)]
    rw [if_neg (by rw [hb]; simp)]

/-- Witness for C8: on the loaded single-node state, a pointer-down inside
a node box changes nothing and captures nothing, while one on the empty
background captures the pointer and starts panning. -/
theorem pan_gesture_isolation_witness :
    singleLoaded.isPanning = false ∧
    singleLoaded.handleCanvasPointerDown nodePointerDown
      = (singleLoaded, false) ∧
    (singleLoaded.handleCanvasPointerDown backgroundPointerDown).2 = true ∧
    (singleLoaded.handleCanvasPointerDown backgroundPointerDown).1.isPanning
      = true := by
  have hpan : singleLoaded.isPanning = false := by with_unfolding_all decide
  have h1 := pan_gesture_isolation.1 singleLoaded nodePointerDown
    (Or.inr (Or.inl rfl))
  have h2 := pan_gesture_isolation.2 singleLoaded backgroundPointerDown
    hpan rfl rfl rfl rfl
  exact ⟨hpan, h1, by rw [h2], by rw [h2]⟩

/-- C9: with a missing template identifier or no resolvable root id,
`refreshHierarchy` issues no request and silently clears the hierarchy and
the error message; and starting from an idle state, the loading flag is
false again at the end of every refresh cycle — skipped, succeeded or
failed. -/
theorem refresh_input_incomplete_and_loading :
    (∀ s : ExplorerState,
      normalizeString s.templateDeveloperName = none ∨
        s.effectiveRootRecordId = none →
      s.refreshStart =
        ({ s with hierarchy := none, errorMessage := none }, none)) ∧
    (∀ (s : ExplorerState) (outcome : FetchOutcome),
      s.isLoading = false →
      (s.refreshCycle outcome).isLoading = false) := by
  constructor
  · intro s hmiss
    rw [ExplorerState.refreshStart]
    rcases hmiss with hm | hm
    · rw [hm]
    · rcases htd : normalizeString s.templateDeveloperName with _ | tdn
      · rfl
      · rw [hm]
  · intro s outcome hload
    rcases htd : normalizeString s.templateDeveloperName with _ | tdn
    · simp only [ExplorerState.refreshCycle, ExplorerState.refreshStart, htd]
      exact hload
    · rcases her : s.effectiveRootRecordId with _ | root
      · simp only [ExplorerState.refreshCycle, ExplorerState.refreshStart,
          htd, her]
        exact hload
      · cases outcome with
        | success r =>
            simp only [ExplorerState.refreshCycle, ExplorerState.refreshStart,
              htd, her]
        | failure m =>
            simp only [ExplorerState.refreshCycle, ExplorerState.refreshStart,
              htd, her]

/-- Witness for C9: without a template the refresh clears the display and
issues nothing; the loading flag is false after a failed cycle from the
incomplete state and after the successful four-node cycle. -/
theorem refresh_input_incomplete_and_loading_witness :
    templateMissingState.refreshStart =
      ({ templateMissingState with hierarchy := none, errorMessage := none },
       none) ∧
    (templateMissingState.refreshCycle (.failure "boom")).isLoading = false ∧
    (demoBaseState.refreshCycle (.success demoHierarchy)).isLoading
      = false := by
  refine ⟨?_, ?_, ?_⟩
  · exact refresh_input_incomplete_and_loading.1 templateMissingState
      (Or.inl (by with_unfolding_all decide))
  · exact refresh_input_incomplete_and_loading.2 templateMissingState _
      (by with_unfolding_all decide)
  · exact refresh_input_incomplete_and_loading.2 demoBaseState _
      (by with_unfolding_all decide)

/-- C10: for a capped result, the displayed cap message falls back to
"Results were capped." when the message of the result is absent or empty
and repeats the message of the result exactly otherwise. -/
theorem cap_message_spec :
    ∀ (s : ExplorerState) (h : HierarchyResult),
      s.hierarchy = some h → h.capped = true →
      ((h.capMessage = none ∨ h.capMessage = some "") →
        s.capMessage = "Results were capped.") ∧
      (∀ msg : String, h.capMessage = some msg → msg ≠ "" →
        s.capMessage = msg) := by
  intro s h hh hcap
  constructor
  · intro hmiss
    rcases hmiss with hm | hm
    · simp only [ExplorerState.capMessage, hh, Option.some_bind, hm]
    · simp only [ExplorerState.capMessage, hh, Option.some_bind, hm]
      rw [if_pos trivial]
  · intro msg hm hne
    simp only [ExplorerState.capMessage, hh, Option.some_bind, hm]
    rw [if_neg hne]

/-- Witness for C10: the capped result carrying "Capped at 50 nodes"
displays exactly that string, and the capped result without a message
displays the fallback. -/
theorem cap_message_spec_witness :
    cappedState.capMessage = "Capped at 50 nodes" ∧
    cappedSilentState.capMessage = "Results were capped." := by
  constructor
  · exact (cap_message_spec cappedState cappedResult rfl rfl).2
      "Capped at 50 nodes" rfl (by with_unfolding_all decide)
  · exact (cap_message_spec cappedSilentState cappedSilentResult rfl rfl).1
      (Or.inl rfl)

end LRES
